import Mathlib

/-!
Verification of the band-structure fragment of the repository: the
`find_bandgap` routine and the `BandsData` storage class from
`aiida/orm/data/array/bands.py`, and the test-fixture teardown from
`aiida/djsite/db/testbase.py`.  Band energies and occupations (numpy
float64 values in the source) are modelled as rationals; uncaught Python
exceptions are modelled by the `Except Err` result type.
-/

set_option maxHeartbeats 1000000

namespace AiidaBands

/-- The kinds of Python exceptions the translated code can raise. -/
inductive Err where
  | valueError (msg : String)
  | keyError (msg : String)
  | attributeError (msg : String)
  | indexError
  | validationError (msg : String)
  | exceptionErr (msg : String)
  deriving Repr, DecidableEq

instance exceptDecEq {ε α : Type} [DecidableEq ε] [DecidableEq α] :
    DecidableEq (Except ε α) := fun a b =>
  match a, b with
  | .ok x, .ok y =>
    if h : x = y then isTrue (congrArg Except.ok h)
    else isFalse (fun hc => h (Except.ok.inj hc))
  | .error x, .error y =>
    if h : x = y then isTrue (congrArg Except.error h)
    else isFalse (fun hc => h (Except.error.inj hc))
  | .ok _, .error _ => isFalse (fun hc => Except.noConfusion hc)
  | .error _, .ok _ => isFalse (fun hc => Except.noConfusion hc)

/-- A stored numpy array of band energies or occupations: 2-dimensional
(kpoints x bands) or 3-dimensional (spins x kpoints x bands). -/
inductive StoredArr where
  | two (a : List (List ℚ))
  | three (a : List (List (List ℚ)))
  deriving Repr, DecidableEq

/-- `len(arr.shape)` of a stored array. -/
def StoredArr.dim : StoredArr → ℕ
  | .two _ => 2
  | .three _ => 3

/-- `numpy.concatenate([_ for _ in stored], axis=1)` (bands.py lines 70 and 92):
row `k` of the result is the concatenation over spins of row `k`. -/
def concatAxis1 (spins : List (List (List ℚ))) : List (List ℚ) :=
  (List.range (spins.headD []).length).map
    (fun k => (spins.map (fun s => s.getD k [])).flatten)

/-- bands.py lines 65-72: a 3-dimensional array is flattened to one band set
per kpoint, a 2-dimensional array is used as is. -/
def concatSpins : StoredArr → List (List ℚ)
  | .two a => a
  | .three a => concatAxis1 a

/-- Python 2 `int()` on a number: truncation toward zero. -/
def pyInt (q : ℚ) : ℤ := if 0 ≤ q then ⌊q⌋ else ⌈q⌉

/-- Python 2 `int(round(x))`: rounding half away from zero (the result of
`round` is integral, so the outer `int` is the identity). -/
def pyRound (q : ℚ) : ℤ := if 0 ≤ q then ⌊q + 1/2⌋ else ⌈q - 1/2⌉

/-- `nint`, bands.py lines 47-54: `int(num+.5)` for positive `num`,
`int(num-.5)` otherwise. -/
def nint (q : ℚ) : ℤ := if 0 < q then pyInt (q + 1/2) else pyInt (q - 1/2)

/-- Python truthiness of an optional float argument: `None` and `0.0` are
falsy, every other float is truthy. -/
def truthy : Option ℚ → Bool
  | none => false
  | some q => decide (q ≠ 0)

/-- Python `max()` of a list of floats; raises ValueError on an empty list. -/
def pyMax : List ℚ → Except Err ℚ
  | [] => .error (.valueError "max() arg is an empty sequence")
  | x :: xs => .ok (xs.foldl max x)

/-- Python `min()` of a list of floats; raises ValueError on an empty list. -/
def pyMin : List ℚ → Except Err ℚ
  | [] => .error (.valueError "min() arg is an empty sequence")
  | x :: xs => .ok (xs.foldl min x)

/-- Python indexing `row[m]` with negative-index wraparound; IndexError when
the index is out of range on both sides. -/
def pyIndex (l : List ℚ) (m : ℤ) : Except Err ℚ :=
  if 0 ≤ m then
    if m.toNat < l.length then .ok (l.getD m.toNat 0) else .error .indexError
  else
    if 0 ≤ (l.length : ℤ) + m then .ok (l.getD ((l.length : ℤ) + m).toNat 0)
    else .error .indexError

/-- `[ i[m] for i in rows ]` (bands.py lines 126 and 129): stops with
IndexError at the first out-of-range row. -/
def mapPyIndex : List (List ℚ) → ℤ → Except Err (List ℚ)
  | [], _ => .ok []
  | r :: rs, m =>
    match pyIndex r m with
    | .error e => .error e
    | .ok v =>
      match mapPyIndex rs m with
      | .error e => .error e
      | .ok vs => .ok (v :: vs)

/-- The persistent state of a `BandsData` node: the kpoints list, the stored
arrays `bands` and `occupations`, and the attributes used by the class. -/
structure BandsDataState where
  kpoints : Option (List (List ℚ))
  bandsArr : Option StoredArr
  occArr : Option StoredArr
  unitsAttr : Option String
  arrayLabels : Option (List String)
  deriving Repr, DecidableEq

/-- Modelled from the spec: `ArrayData.get_array` of the generic
array-container ORM model `BandsData` is built on (its code is not among the
reviewed sources).  It returns the stored array with the given name and
raises KeyError when no array with that name has been stored. -/
def get_array (bd : BandsDataState) (name : String) : Except Err StoredArr :=
  if name = "bands" then
    match bd.bandsArr with
    | some a => .ok a
    | none => .error (.keyError "bands")
  else if name = "occupations" then
    match bd.occArr with
    | some a => .ok a
    | none => .error (.keyError "occupations")
  else .error (.keyError name)

/-- `BandsData.get_bands`, bands.py lines 364-391 (the `also_labels` branch,
unused by the claims, is omitted).  The KeyError raised by `get_array` for a
missing array is translated into AttributeError. -/
def get_bands (bd : BandsDataState) (also_occupations : Bool) :
    Except Err (StoredArr × Option StoredArr) :=
  match get_array bd "bands" with
  | .error (.keyError _) => .error (.attributeError "No stored bands has been found")
  | .error e => .error e
  | .ok bands =>
    if also_occupations then
      match get_array bd "occupations" with
      | .error (.keyError _) => .error (.attributeError "No occupations were set")
      | .error e => .error e
      | .ok occ => .ok (bands, some occ)
    else .ok (bands, none)

/-- `numpy.sort` on a 2-dimensional array / its in-place variant
(bands.py lines 119 and 153): sorts every kpoint row ascending. -/
def npSortRows (bands : List (List ℚ)) : List (List ℚ) :=
  bands.map (List.insertionSort (fun a b => a ≤ b))

/-- bands.py lines 101-104: per kpoint, zip the band row with the occupation
row and stably sort the pairs by band energy (Python `sorted` with
`key=lambda x: x[0]`). -/
def sortPairRows (bands occupations : List (List ℚ)) : List (List (ℚ × ℚ)) :=
  (bands.zip occupations).map
    (fun kp => List.insertionSort (fun p q => p.1 ≤ q.1) (kp.1.zip kp.2))

/-- `numpy.where(numpy.array([nint(_) for _ in x]) > 0)[0]` for one kpoint row
(bands.py line 107): the ascending list of indices whose rounded occupation is
positive. -/
def wherePos (x : List ℚ) : List ℕ :=
  (List.range x.length).filter (fun j => decide (0 < nint (x.getD j 0)))

/-- `[...][-1]` of the previous list: its last element, IndexError when the
row has no positively-occupied level. -/
def homoIndexRow (x : List ℚ) : Except Err ℕ :=
  match (wherePos x).getLast? with
  | none => .error .indexError
  | some j => .ok j

/-- The list `homo_indexes` of bands.py line 107, one entry per kpoint. -/
def homoIndexes : List (List ℚ) → Except Err (List ℕ)
  | [] => .ok []
  | x :: xs =>
    match homoIndexRow x with
    | .error e => .error e
    | .ok j =>
      match homoIndexes xs with
      | .error e => .error e
      | .ok js => .ok (j :: js)

/-- `[ _[0][_[1]+1] for _ in zip(bands, homo_indexes) ]` (bands.py line 113):
IndexError when some kpoint has no level above its homo index. -/
def lumoExtract : List (List ℚ) → List ℕ → Except Err (List ℚ)
  | _, [] => .ok []
  | [], _ :: _ => .ok []
  | r :: rs, h :: hs =>
    if h + 1 < r.length then
      match lumoExtract rs hs with
      | .error e => .error e
      | .ok vs => .ok (r.getD (h + 1) 0 :: vs)
    else .error .indexError

/-- bands.py line 105: `number_electrons = int(round(sum of all occupations /
num_kpoints))`.  In the Lean model a zero kpoint count divides by zero and
yields 0; no claim involves zero kpoints. -/
def deducedNumberElectrons (occs : List (List ℚ)) (num_kpoints : ℕ) : ℤ :=
  pyRound ((occs.map (fun r => r.sum)).sum / (num_kpoints : ℚ))

/-- bands.py lines 134-146: the odd-electron shortcut for non-spin-polarised
bands, then the gap classification from `min(lumo) - max(homo)`. -/
def parityGap (number_electrons : ℤ) (dim : ℕ) (homo lumo : List ℚ) :
    Except Err (Bool × Option ℚ) :=
  if Int.fmod number_electrons 2 = 1 ∧ dim = 2 then .ok (false, none)
  else
    match pyMin lumo with
    | .error e => .error e
    | .ok l =>
      match pyMax homo with
      | .error e => .error e
      | .ok h =>
        let gap := l - h
        if gap = 0 then .ok (false, some 0)
        else if gap < 0 then .ok (false, none)
        else .ok (true, some gap)

/-- numpy 2-dimensional transpose of a rectangular list of rows
(bands.py line 155): level `j` collects entry `j` of every kpoint row. -/
def npTranspose (rows : List (List ℚ)) : List (List ℚ) :=
  (List.range (rows.headD []).length).map (fun j => rows.map (fun r => r.getD j 0))

/-- `[ (max(i), min(i)) for i in levels ]` (bands.py line 156). -/
def maxMins : List (List ℚ) → Except Err (List (ℚ × ℚ))
  | [] => .ok []
  | i :: rest =>
    match pyMax i with
    | .error e => .error e
    | .ok m =>
      match pyMin i with
      | .error e => .error e
      | .ok n =>
        match maxMins rest with
        | .error e => .error e
        | .ok tl => .ok ((m, n) :: tl)

/-- bands.py lines 149-184: the Fermi-energy analysis, applied to the bands
already sorted per kpoint (the in-place `bands.sort()` of line 153). -/
def fermiCore (sorted : List (List ℚ)) (fermi_energy : ℚ) :
    Except Err (Bool × Option ℚ) :=
  match maxMins (npTranspose sorted) with
  | .error e => .error e
  | .ok max_mins =>
    match pyMax sorted.flatten with
    | .error e => .error e
    | .ok bmax =>
      if bmax < fermi_energy then
        .error (.valueError "The Fermi energy is above all band energies, don't know what to do")
      else
        match pyMin sorted.flatten with
        | .error e => .error e
        | .ok bmin =>
          if fermi_energy < bmin then
            .error (.valueError "The Fermi energy is below all band energies, don't know what to do.")
          else if max_mins.any (fun i => decide (i.2 < fermi_energy) && decide (fermi_energy < i.1)) then
            .ok (false, none)
          else if max_mins.any (fun i => decide (i.1 = fermi_energy)) &&
                  max_mins.any (fun i => decide (i.2 = fermi_energy)) then
            .ok (false, some 0)
          else
            match pyMax ((max_mins.filter (fun i => decide (i.1 < fermi_energy))).map Prod.fst) with
            | .error e => .error e
            | .ok homo =>
              match pyMin ((max_mins.filter (fun i => decide (fermi_energy < i.2))).map Prod.snd) with
              | .error e => .error e
              | .ok lumo =>
                let gap := lumo - homo
                if gap ≤ 0 then
                  .error (.exceptionErr "Something wrong has been implemented. Revise the code!")
                else .ok (true, some gap)

/-- bands.py lines 118-132: the explicit-number_electrons analysis, applied to
the bands already sorted per kpoint (`bands = numpy.sort(bands)` of line 119).
`dim` is `len(stored_bands.shape)`; Python 2 `/` on ints is floor division. -/
def explicitNeCore (sorted : List (List ℚ)) (dim : ℕ) (ne : ℤ) :
    Except Err (Bool × Option ℚ) :=
  let nepb : ℤ := 4 - (dim : ℤ)
  match mapPyIndex sorted (Int.fdiv ne nepb - 1) with
  | .error e => .error e
  | .ok homo =>
    match mapPyIndex sorted (Int.fdiv ne nepb) with
    | .error _ =>
      .error (.valueError "To understand if it is a metal or insulator, need more bands than n_band=number_electrons")
    | .ok lumo => parityGap ne dim homo lumo

/-- bands.py lines 86-146: the occupation-based analysis used when neither
`number_electrons` nor `fermi_energy` was given. -/
def occupationsCore (bands : List (List ℚ)) (stored_occ : StoredArr) (dim : ℕ) :
    Except Err (Bool × Option ℚ) :=
  let num_kpoints := bands.length
  let occupations := concatSpins stored_occ
  let pairs := sortPairRows bands occupations
  let bands2 := pairs.map (fun r => r.map Prod.fst)
  let occs2 := pairs.map (fun r => r.map Prod.snd)
  let ne := deducedNumberElectrons occs2 num_kpoints
  match homoIndexes occs2 with
  | .error e => .error e
  | .ok his =>
    if 1 < his.dedup.length then .ok (false, none)
    else
      let homo := (bands2.zip his).map (fun p => p.1.getD p.2 0)
      match lumoExtract bands2 his with
      | .error _ =>
        .error (.valueError "To understand if it is a metal or insulator, need more bands than n_band=number_electrons")
      | .ok lumo => parityGap ne dim homo lumo

/-- `find_bandgap`, bands.py lines 18-184.  Returns `(is_insulator, gap)`;
a `.error` result models an uncaught Python exception. -/
def find_bandgap (bandsdata : BandsDataState)
    (number_electrons fermi_energy : Option ℚ) : Except Err (Bool × Option ℚ) :=
  if truthy fermi_energy && truthy number_electrons then
    .error (.valueError "Specify either the number of electrons or the Fermi energy, but not both")
  else
    match get_bands bandsdata false with
    | .error (.keyError _) => .error (.keyError "Cannot do much of a band analysis without bands")
    | .error e => .error e
    | .ok (stored_bands, _) =>
      let bands := concatSpins stored_bands
      match fermi_energy with
      | some fe => fermiCore (npSortRows bands) fe
      | none =>
        match number_electrons with
        | some n =>
          explicitNeCore (npSortRows bands) stored_bands.dim (pyInt n)
        | none =>
          match get_bands bandsdata true with
          | .error (.keyError _) =>
            .error (.keyError "Cannot determine metallicity if I don't have either fermi energy, or occupations")
          | .error e => .error e
          | .ok (_, some stored_occupations) =>
            occupationsCore bands stored_occupations stored_bands.dim
          | .ok (_, none) => .error (.valueError "need more than 1 value to unpack")

/-- The number of electrons `find_bandgap` works with when no Fermi energy is
given: the truncated explicit argument (bands.py line 120), or the value
deduced from the occupations (bands.py line 105), reached through the same
reads and the same per-kpoint sorting the function performs. -/
def effectiveNumberElectrons (bd : BandsDataState) (ne? : Option ℚ) :
    Except Err ℤ :=
  match ne? with
  | some n => .ok (pyInt n)
  | none =>
    match get_bands bd false with
    | .error e => .error e
    | .ok (stored_bands, _) =>
      let bands := concatSpins stored_bands
      match get_bands bd true with
      | .error e => .error e
      | .ok (_, some stored_occupations) =>
        let occs2 := (sortPairRows bands (concatSpins stored_occupations)).map
          (fun row => row.map Prod.snd)
        .ok (deducedNumberElectrons occs2 bands.length)
      | .ok (_, none) => .error (.valueError "need more than 1 value to unpack")

/-- The shape of a normal find_bandgap result promised by its docstring:
insulators come with a strictly positive gap, non-insulators with no gap
(metal) or a zero gap (semi-metal). -/
def WellFormedResult (r : Bool × Option ℚ) : Prop :=
  (r.1 = true → ∃ g, r.2 = some g ∧ 0 < g) ∧
  (r.1 = false → r.2 = none ∨ r.2 = some 0)

/-- Two stored arrays of the same shape class whose band energies have been
permuted independently within each kpoint (and each spin). -/
def storedPerm : StoredArr → StoredArr → Prop
  | .two a, .two b => List.Forall₂ (fun x y => List.Perm x y) a b
  | .three a, .three b =>
    List.Forall₂ (List.Forall₂ (fun x y => List.Perm x y)) a b
  | _, _ => False

/-- A bands-like argument handed to `set_bands`: a nested list that
`numpy.array` converts into an array of dimension 1, 2 or 3 (the dimensions
relevant to the validation code).  All elements are rationals, so the
float-or-None element checks of bands.py lines 260-275 are identically
satisfied in this model. -/
inductive PyArr where
  | one (a : List ℚ)
  | two (a : List (List ℚ))
  | three (a : List (List (List ℚ)))
  deriving Repr, DecidableEq

/-- `len(numpy.array(x).shape)`. -/
def PyArr.dim : PyArr → ℕ
  | .one _ => 1
  | .two _ => 2
  | .three _ => 3

/-- `numpy.array(x).shape` for a rectangular nested list. -/
def PyArr.shape : PyArr → List ℕ
  | .one a => [a.length]
  | .two a => [a.length, (a.headD []).length]
  | .three a => [a.length, (a.headD []).length, ((a.headD []).headD []).length]

/-- The converted array as stored: only dimensions 2 and 3 pass validation. -/
def PyArr.toStored : PyArr → Option StoredArr
  | .one _ => none
  | .two a => some (.two a)
  | .three a => some (.three a)

/-- The labels argument of `set_bands`: a string, a list/tuple of strings, or
a value of any other type (which the validation rejects). -/
inductive LabelsArg where
  | str (s : String)
  | strList (l : List String)
  | other
  deriving Repr, DecidableEq

/-- bands.py lines 287-290: the label-count checks against the array shape. -/
def labelsLengthCheck (dim nspins : ℕ) (ls : List String) :
    Except Err (Option (List String)) :=
  if dim = 2 ∧ ls.length ≠ 1 then
    .error (.validationError "More array labels than the number of arrays")
  else if dim = 3 ∧ ls.length ≠ nspins then
    .error (.validationError "More array labels than the number of arrays")
  else .ok (some ls)

/-- bands.py lines 277-292: normalise and check the labels argument. -/
def labelsCheck (dim nspins : ℕ) : Option LabelsArg → Except Err (Option (List String))
  | none => .ok none
  | some (.str s) => labelsLengthCheck dim nspins [s]
  | some (.strList l) => labelsLengthCheck dim nspins l
  | some .other =>
    .error (.validationError "Band labels have an unrecognized type but should be a string or a list of strings")

/-- `BandsData._validate_bands_occupations`, bands.py lines 225-294: kpoints
must be set; the bands must have dimension 2 or 3 with one row per kpoint;
occupations, when given, must have the same shape; labels must be a string or
a list of strings of the right length.  The element-type checks of lines
260-275 always pass on rational-valued arrays. -/
def _validate_bands_occupations (st : BandsDataState) (bands : PyArr)
    (occupations : Option PyArr) (labels : Option LabelsArg) :
    Except Err (StoredArr × Option StoredArr × Option (List String)) :=
  match st.kpoints with
  | none => .error (.attributeError "Must first set the kpoints, then the bands")
  | some kpoints =>
    match bands.toStored with
    | none =>
      .error (.valueError "Bands must be an array of dimension 2 ([N_kpoints, N_bands]) or of dimension 3 ([N_arrays, N_kpoints, N_bands])")
    | some the_bands =>
      let num_kpoints_from_bands :=
        if bands.dim = 2 then bands.shape.headD 0 else bands.shape.getD 1 0
      if num_kpoints_from_bands ≠ kpoints.length then
        .error (.valueError "There must be energy values for every kpoint")
      else
        match (match occupations with
               | none => Except.ok (none : Option StoredArr)
               | some occ =>
                 if occ.shape ≠ bands.shape then
                   Except.error (Err.valueError "Shape of occupations different from shape of bands")
                 else Except.ok occ.toStored) with
        | .error e => .error e
        | .ok the_occupations =>
          match labelsCheck bands.dim (bands.shape.headD 0) labels with
          | .error e => .error e
          | .ok the_labels => .ok (the_bands, the_occupations, the_labels)

/-- Python `str(value)` for the units attribute; `str(None)` is `"None"`. -/
def pyStr : Option String → String
  | none => "None"
  | some s => s

/-- `BandsData.set_bands`, bands.py lines 298-321: validate, then store the
bands array, set the units attribute, and store the labels attribute and the
occupations array when given.  Validation runs before any mutation, so the
state is returned unchanged when it raises. -/
def set_bands (st : BandsDataState) (bands : PyArr) (units : Option String)
    (occupations : Option PyArr) (labels : Option LabelsArg) :
    Except Err Unit × BandsDataState :=
  match _validate_bands_occupations st bands occupations labels with
  | .error e => (.error e, st)
  | .ok (the_bands, the_occupations, the_labels) =>
    let st1 := { st with bandsArr := some the_bands }
    let st2 := { st1 with unitsAttr := some (pyStr units) }
    let st3 := match the_labels with
               | some l => { st2 with arrayLabels := some l }
               | none => st2
    let st4 := match the_occupations with
               | some o => { st3 with occArr := some o }
               | none => st3
    (.ok (), st4)

/-- The attribute names contributed by the `BandsData` class body (bands.py
lines 192-831), in the sorted order Python `dir()` yields them.  Modelled
from the spec: the ancestor classes (the generic array-container and kpoints
ORM models, whose code is not among the reviewed sources) contribute no name
starting with the prepare-method marker. -/
def bandsDataDirNames : List String :=
  ["_exportstring", "_prepare_agr", "_prepare_agr_batch", "_prepare_dat_1",
   "_prepare_dat_2", "_prepare_json", "_set_pbc", "_validate_bands_occupations",
   "array_labels", "export", "get_bands", "get_export_formats", "set_bands",
   "set_kpointsdata", "units"]

/-- Python `s.startswith(sep)` on the underlying character lists. -/
def pyStartsWith (s sep : String) : Bool :=
  sep.data.isPrefixOf s.data

/-- Fuel-driven worker for Python `str.split(sep)`: `acc` holds the current
chunk reversed; at each occurrence of `sep` the chunk is closed.  The fuel is
an upper bound on the number of steps, so the 0-fuel case is never reached. -/
def pySplitAux (sep : List Char) : ℕ → List Char → List Char → List (List Char)
  | 0, acc, rem => [acc.reverse ++ rem]
  | _ + 1, acc, [] => [acc.reverse]
  | fuel + 1, acc, c :: rest =>
    if sep.isPrefixOf (c :: rest) then
      acc.reverse :: pySplitAux sep fuel [] ((c :: rest).drop sep.length)
    else pySplitAux sep fuel (c :: acc) rest

/-- Python `s.split(sep)` for a non-empty separator. -/
def pySplit (s sep : String) : List String :=
  (pySplitAux sep.data (s.data.length + 1) [] s.data).map (fun cs => ⟨cs⟩)

/-- `BandsData.get_export_formats`, bands.py lines 568-570: the names in
`dir(self)` that start with the prepare-method marker, with the marker
stripped by `split`. -/
def get_export_formats : List String :=
  (bandsDataDirNames.filter (fun i => pyStartsWith i "_prepare_")).map
    (fun i => (pySplit i "_prepare_").getD 1 "")

end AiidaBands

namespace AiidaTestbase

/-- The database rows visible to the test fixture: workflows, groups, links
(each referencing a pair of node ids), nodes, users (by email) and
computers. -/
structure DbState where
  workflows : List ℕ
  groups : List ℕ
  links : List (ℕ × ℕ)
  nodes : List ℕ
  users : List String
  computers : List ℕ
  deriving Repr, DecidableEq

/-- The six deletion statements of `AiidaTestCase.tearDownClass`
(testbase.py lines 36-67). -/
inductive TdStep where
  | delWorkflows
  | delGroups
  | delLinks
  | delNodes
  | delUser
  | delComputers
  deriving Repr, DecidableEq

/-- Modelled from the spec: the Django ORM deletions issued by
`AiidaTestCase.tearDownClass` (testbase.py lines 43-67).
`objects.all().delete()` removes every row of the table; the user deletion
removes the configured user only (the source wraps it in
try/except ObjectDoesNotExist). -/
def applyStep (email : String) (s : DbState) : TdStep → DbState
  | .delWorkflows => { s with workflows := [] }
  | .delGroups => { s with groups := [] }
  | .delLinks => { s with links := [] }
  | .delNodes => { s with nodes := [] }
  | .delUser => { s with users := s.users.filter (fun u => !(u == email)) }
  | .delComputers => { s with computers := [] }

/-- The order in which `tearDownClass` issues its deletions
(testbase.py lines 43-67). -/
def tearDownOrder : List TdStep :=
  [.delWorkflows, .delGroups, .delLinks, .delNodes, .delUser, .delComputers]

/-- Run a list of deletion steps, recording the state after each one. -/
def runSteps (email : String) (s : DbState) : List TdStep → List (TdStep × DbState)
  | [] => []
  | step :: rest =>
    let s2 := applyStep email s step
    (step, s2) :: runSteps email s2 rest

/-- `AiidaTestCase.tearDownClass`: the trace of deletions, with the database
state after each. -/
def tearDownClass (email : String) (s : DbState) : List (TdStep × DbState) :=
  runSteps email s tearDownOrder

end AiidaTestbase

namespace AiidaBands

/-- An empty BandsData node: no kpoints, no stored arrays. -/
def emptyBD : BandsDataState :=
  { kpoints := none, bandsArr := none, occArr := none,
    unitsAttr := none, arrayLabels := none }

/-- A two-kpoint, two-band insulator with occupations 2, 0 at every kpoint. -/
def bdInsulator : BandsDataState :=
  { kpoints := some [[0], [0]], bandsArr := some (.two [[0, 1], [0, 1]]),
    occArr := some (.two [[2, 0], [2, 0]]),
    unitsAttr := none, arrayLabels := none }

/-- Bands [[1], [2]]: a single band level; the Fermi energy 1 coincides with
the bottom of the spectrum. -/
def bdOneBand : BandsDataState :=
  { kpoints := some [[0], [0]], bandsArr := some (.two [[1], [2]]),
    occArr := none, unitsAttr := none, arrayLabels := none }

/-- Bands [[0, 2], [0, 2]]: two flat levels at energies 0 and 2. -/
def bdTwoLevels : BandsDataState :=
  { kpoints := some [[0], [0]], bandsArr := some (.two [[0, 2], [0, 2]]),
    occArr := none, unitsAttr := none, arrayLabels := none }

/-- The bands of bdTwoLevels with every kpoint row reversed. -/
def bdTwoLevelsPerm : BandsDataState :=
  { kpoints := some [[0], [0]], bandsArr := some (.two [[2, 0], [2, 0]]),
    occArr := none, unitsAttr := none, arrayLabels := none }

/-- A state with two kpoints set and no arrays stored yet. -/
def stKp : BandsDataState :=
  { kpoints := some [[0], [1]], bandsArr := none, occArr := none,
    unitsAttr := none, arrayLabels := none }

/-- Bands [[0, 2], [2, 3]]: the lowest level runs from 0 to 2 and is crossed
by a Fermi energy of 1. -/
def bdCrossing : BandsDataState :=
  { kpoints := some [[0], [0]], bandsArr := some (.two [[0, 2], [2, 3]]),
    occArr := none, unitsAttr := none, arrayLabels := none }

/-- Two kpoints and two bands, no occupations stored. -/
def bdTwoBands : BandsDataState :=
  { kpoints := some [[0], [0]], bandsArr := some (.two [[0, 1], [0, 1]]),
    occArr := none, unitsAttr := none, arrayLabels := none }

theorem foldl_max_mem (x : ℚ) (xs : List ℚ) : xs.foldl max x ∈ x :: xs := by
  induction xs generalizing x with
  | nil => simp
  | cons y ys ih =>
    have h := ih (max x y)
    simp only [List.foldl_cons]
    rcases List.mem_cons.1 h with h1 | h1
    · rcases max_choice x y with hm | hm
      · rw [h1, hm]; exact List.mem_cons_self _ _
      · rw [h1, hm]; exact List.mem_cons_of_mem _ (List.mem_cons_self _ _)
    · exact List.mem_cons_of_mem _ (List.mem_cons_of_mem _ h1)

theorem foldl_min_mem (x : ℚ) (xs : List ℚ) : xs.foldl min x ∈ x :: xs := by
  induction xs generalizing x with
  | nil => simp
  | cons y ys ih =>
    have h := ih (min x y)
    simp only [List.foldl_cons]
    rcases List.mem_cons.1 h with h1 | h1
    · rcases min_choice x y with hm | hm
      · rw [h1, hm]; exact List.mem_cons_self _ _
      · rw [h1, hm]; exact List.mem_cons_of_mem _ (List.mem_cons_self _ _)
    · exact List.mem_cons_of_mem _ (List.mem_cons_of_mem _ h1)

theorem pyMax_mem {l : List ℚ} {m : ℚ} (h : pyMax l = .ok m) : m ∈ l := by
  cases l with
  | nil => simp [pyMax] at h
  | cons x xs =>
    simp only [pyMax, Except.ok.injEq] at h
    rw [← h]; exact foldl_max_mem x xs

theorem pyMin_mem {l : List ℚ} {m : ℚ} (h : pyMin l = .ok m) : m ∈ l := by
  cases l with
  | nil => simp [pyMin] at h
  | cons x xs =>
    simp only [pyMin, Except.ok.injEq] at h
    rw [← h]; exact foldl_min_mem x xs

theorem get_bands_not_keyError (bd : BandsDataState) (b : Bool) (msg : String) :
    get_bands bd b ≠ .error (.keyError msg) := by
  cases hb : bd.bandsArr <;> cases ho : bd.occArr <;> cases b <;>
    simp [get_bands, get_array, hb, ho]

/-- C7: `get_export_formats` returns exactly the format names agr, agr_batch,
dat_1, dat_2 and json, the names of the prepare methods of the class, so the
class exports to the xmgrace, gnuplot and JSON formats. -/
theorem get_export_formats_eq :
    get_export_formats = ["agr", "agr_batch", "dat_1", "dat_2", "json"] := rfl

/-- C3 (failing input): with `number_electrons = 2` and `fermi_energy = 0.0`
both given, `find_bandgap` does not raise the ValueError of bands.py lines
56-58 — the truthiness test `if fermi_energy and number_electrons` treats the
float `0.0` as unspecified — and instead goes on to read the bands: on a node
with no stored bands it fails with the AttributeError of `get_bands`, which
proves the bands were read. -/
theorem find_bandgap_zero_fermi_bypasses_check :
    find_bandgap emptyBD (some 2) (some 0) =
      .error (.attributeError "No stored bands has been found") := rfl

/-- C2 (counterexample): bands `[[1], [2]]` with the explicit Fermi energy 1,
which lies between the minimum 1 and the maximum 2 of the stored energies.
No level straddles it and it is not both a level maximum and a level minimum,
yet `find_bandgap` does not return an insulator verdict: the set of level
maxima strictly below the Fermi energy is empty and the Python `max()` of an
empty sequence raises ValueError. -/
theorem find_bandgap_fermi_empty_homo_counterexample :
    find_bandgap bdOneBand none (some 1) =
      .error (.valueError "max() arg is an empty sequence") := rfl

/-- C9 (counterexample): on a BandsData with no stored bands array but with
both `number_electrons` and `fermi_energy` given (and nonzero),
`find_bandgap` raises the ValueError of bands.py lines 56-58 rather than the
AttributeError of `get_bands`, so the claim fails for this call. -/
theorem find_bandgap_no_bands_both_args_counterexample :
    find_bandgap emptyBD (some 1) (some 1) =
      .error (.valueError "Specify either the number of electrons or the Fermi energy, but not both") ∧
    ∀ msg, find_bandgap emptyBD (some 1) (some 1) ≠
      .error (.attributeError msg) := by
  refine ⟨rfl, ?_⟩
  intro msg h
  rw [show find_bandgap emptyBD (some 1) (some 1) =
        .error (.valueError "Specify either the number of electrons or the Fermi energy, but not both")
      from rfl] at h
  simp at h

theorem parityGap_wf {ne : ℤ} {dim : ℕ} {homo lumo : List ℚ}
    {r : Bool × Option ℚ} (h : parityGap ne dim homo lumo = .ok r) :
    WellFormedResult r := by
  simp only [parityGap] at h
  split at h
  · cases h; exact ⟨by simp, fun _ => Or.inl rfl⟩
  · split at h
    · cases h
    · split at h
      · cases h
      · split at h
        · cases h; exact ⟨by simp, fun _ => Or.inr rfl⟩
        · split at h
          · cases h; exact ⟨by simp, fun _ => Or.inl rfl⟩
          · rename_i hne hlt
            cases h
            exact ⟨fun _ => ⟨_, rfl, lt_of_le_of_ne (not_lt.mp hlt) (Ne.symm hne)⟩,
                   by simp⟩

theorem fermiCore_wf {sorted : List (List ℚ)} {fe : ℚ} {r : Bool × Option ℚ}
    (h : fermiCore sorted fe = .ok r) : WellFormedResult r := by
  simp only [fermiCore] at h
  split at h
  · cases h
  · split at h
    · cases h
    · split at h
      · cases h
      · split at h
        · cases h
        · split at h
          · cases h
          · split at h
            · cases h; exact ⟨by simp, fun _ => Or.inl rfl⟩
            · split at h
              · cases h; exact ⟨by simp, fun _ => Or.inr rfl⟩
              · split at h
                · cases h
                · split at h
                  · cases h
                  · split at h
                    · cases h
                    · rename_i hgap
                      cases h
                      exact ⟨fun _ => ⟨_, rfl, not_le.mp hgap⟩, by simp⟩

theorem occupationsCore_wf {bands : List (List ℚ)} {so : StoredArr} {dim : ℕ}
    {r : Bool × Option ℚ} (h : occupationsCore bands so dim = .ok r) :
    WellFormedResult r := by
  simp only [occupationsCore] at h
  split at h
  · cases h
  · split at h
    · cases h; exact ⟨by simp, fun _ => Or.inl rfl⟩
    · split at h
      · cases h
      · exact parityGap_wf h

theorem explicitNeCore_wf {sorted : List (List ℚ)} {dim : ℕ} {ne : ℤ}
    {r : Bool × Option ℚ} (h : explicitNeCore sorted dim ne = .ok r) :
    WellFormedResult r := by
  simp only [explicitNeCore] at h
  split at h
  · cases h
  · split at h
    · cases h
    · exact parityGap_wf h

/-- C1: whenever find_bandgap returns normally, the returned pair
(is_insulator, gap) has one of the documented shapes: insulator with a
strictly positive gap, or non-insulator with gap None (metal) or exactly 0
(semi-metal); no other combination is ever returned. -/
theorem find_bandgap_result_wellformed (bd : BandsDataState)
    (ne fe : Option ℚ) (r : Bool × Option ℚ)
    (h : find_bandgap bd ne fe = .ok r) : WellFormedResult r := by
  simp only [find_bandgap] at h
  split at h
  · cases h
  · split at h
    · cases h
    · cases h
    · split at h
      · exact fermiCore_wf h
      · split at h
        · exact explicitNeCore_wf h
        · split at h
          · cases h
          · cases h
          · exact occupationsCore_wf h
          · cases h

/-- Witness for C1: the crossing example returns normally with (False, None),
and that pair is well-formed. -/
theorem find_bandgap_result_wellformed_witness : WellFormedResult (false, none) :=
  find_bandgap_result_wellformed bdCrossing none (some 1) (false, none) rfl

/-- C9 (amended): for every BandsData with no stored bands array, every call
to find_bandgap that passes the initial both-arguments check (fermi_energy
and number_electrons not both truthy) raises the AttributeError produced by
get_bands for the missing array; and get_bands never lets a KeyError escape,
so the two `except KeyError` handlers inside find_bandgap are unreachable. -/
theorem find_bandgap_no_bands_attribute_error :
    (∀ (bd : BandsDataState) (ne fe : Option ℚ), bd.bandsArr = none →
      (truthy fe && truthy ne) = false →
      find_bandgap bd ne fe =
        .error (.attributeError "No stored bands has been found")) ∧
    (∀ (bd : BandsDataState) (b : Bool) (msg : String),
      get_bands bd b ≠ .error (.keyError msg)) := by
  constructor
  · intro bd ne fe h1 h2
    simp only [find_bandgap, h2, Bool.false_eq_true, if_false]
    simp [get_bands, get_array, h1]
  · exact get_bands_not_keyError

/-- Witness for C9 (amended): with no optional arguments, find_bandgap on a
node without stored bands raises the AttributeError. -/
theorem find_bandgap_no_bands_attribute_error_witness :
    find_bandgap emptyBD none none =
      .error (.attributeError "No stored bands has been found") :=
  find_bandgap_no_bands_attribute_error.1 emptyBD none none rfl rfl

/-- C10: set_bands is atomic with respect to validation failure: whenever
_validate_bands_occupations raises, set_bands propagates the exception and
returns the state unchanged, so the stored arrays and attributes are not
mutated; moreover unset kpoints raise AttributeError and a 1-dimensional
bands argument raises ValueError. -/
theorem set_bands_atomic :
    (∀ (st : BandsDataState) (bands : PyArr) (units : Option String)
       (occupations : Option PyArr) (labels : Option LabelsArg) (e : Err),
       _validate_bands_occupations st bands occupations labels = .error e →
       set_bands st bands units occupations labels = (.error e, st)) ∧
    (∀ (st : BandsDataState) (bands : PyArr) (occupations : Option PyArr)
       (labels : Option LabelsArg), st.kpoints = none →
       _validate_bands_occupations st bands occupations labels =
         .error (.attributeError "Must first set the kpoints, then the bands")) ∧
    (∀ (st : BandsDataState) (kps : List (List ℚ)) (a : List ℚ)
       (occupations : Option PyArr) (labels : Option LabelsArg),
       st.kpoints = some kps →
       _validate_bands_occupations st (.one a) occupations labels =
         .error (.valueError "Bands must be an array of dimension 2 ([N_kpoints, N_bands]) or of dimension 3 ([N_arrays, N_kpoints, N_bands])")) := by
  refine ⟨?_, ?_, ?_⟩
  · intro st bands units occupations labels e h
    simp [set_bands, h]
  · intro st bands occupations labels h
    simp [_validate_bands_occupations, h]
  · intro st kps a occupations labels h
    simp [_validate_bands_occupations, h, PyArr.toStored]

/-- Witness for C10: calling set_bands before setting the kpoints raises and
leaves the empty state untouched. -/
theorem set_bands_atomic_witness :
    set_bands emptyBD (.two [[0]]) none none none =
      (.error (.attributeError "Must first set the kpoints, then the bands"),
       emptyBD) :=
  set_bands_atomic.1 emptyBD (.two [[0]]) none none none
    (.attributeError "Must first set the kpoints, then the bands") rfl

theorem PyArr.toStored_some_of_shape_eq {o b : PyArr} {sb : StoredArr}
    (hb : PyArr.toStored b = some sb) (hsh : PyArr.shape o = PyArr.shape b) :
    ∃ so, PyArr.toStored o = some so := by
  cases o <;> cases b <;> simp_all [PyArr.toStored, PyArr.shape]

/-- C6: round-trip of band storage: with kpoints set and a 2- or
3-dimensional bands argument whose kpoint count matches the stored kpoints,
set_bands succeeds and get_bands returns exactly the converted bands array;
when occupations of the same shape were also given, get_bands with
also_occupations returns the stored bands and the given occupations
unchanged. -/
theorem set_get_bands_roundtrip (st : BandsDataState) (bands : PyArr)
    (sb : StoredArr) (units : Option String) (occupations : Option PyArr)
    (kps : List (List ℚ))
    (hk : st.kpoints = some kps)
    (hs : PyArr.toStored bands = some sb)
    (hnk : (if PyArr.dim bands = 2 then (PyArr.shape bands).headD 0
            else (PyArr.shape bands).getD 1 0) = kps.length)
    (hocc : ∀ o, occupations = some o → PyArr.shape o = PyArr.shape bands) :
    ∃ st2, set_bands st bands units occupations none = (.ok (), st2) ∧
      get_bands st2 false = .ok (sb, none) ∧
      ∀ o so, occupations = some o → PyArr.toStored o = some so →
        get_bands st2 true = .ok (sb, some so) := by
  cases hoc : occupations with
  | none =>
    subst hoc
    have hval : _validate_bands_occupations st bands none none =
        .ok (sb, none, none) := by
      simp only [_validate_bands_occupations, hk, hs, hnk, labelsCheck]
      simp
    refine ⟨{ st with bandsArr := some sb, unitsAttr := some (pyStr units) },
            ?_, ?_, ?_⟩
    · simp [set_bands, hval]
    · simp [get_bands, get_array]
    · intro o so ho _
      cases ho
  | some o =>
    subst hoc
    obtain ⟨so, hso⟩ := PyArr.toStored_some_of_shape_eq hs (hocc o rfl)
    have hval : _validate_bands_occupations st bands (some o) none =
        .ok (sb, some so, none) := by
      simp only [_validate_bands_occupations, hk, hs, hnk, hocc o rfl, hso,
        labelsCheck]
      simp
    refine ⟨{ st with bandsArr := some sb, unitsAttr := some (pyStr units), occArr := some so }, ?_, ?_, ?_⟩
    · simp [set_bands, hval]
    · simp [get_bands, get_array]
    · intro o2 so2 ho2 hso2
      cases ho2
      rw [hso] at hso2
      cases hso2
      simp [get_bands, get_array]

/-- Witness for C6: a 2 x 2 bands array with matching occupations survives
the set/get round trip. -/
theorem set_get_bands_roundtrip_witness :
    ∃ st2, set_bands stKp (.two [[0, 1], [2, 3]]) none
        (some (.two [[1, 1], [1, 0]])) none = (.ok (), st2) ∧
      get_bands st2 false = .ok (.two [[0, 1], [2, 3]], none) ∧
      ∀ o so, some (PyArr.two [[1, 1], [1, 0]]) = some o →
        PyArr.toStored o = some so →
        get_bands st2 true = .ok (.two [[0, 1], [2, 3]], some so) :=
  set_get_bands_roundtrip stKp (.two [[0, 1], [2, 3]]) (.two [[0, 1], [2, 3]])
    none (some (.two [[1, 1], [1, 0]])) [[0], [1]] rfl rfl (by decide)
    (by intro o ho; cases ho; rfl)

theorem parityGap_odd {ne : ℤ} {homo lumo : List ℚ} {r : Bool × Option ℚ}
    (hodd : Int.fmod ne 2 = 1) (h : parityGap ne 2 homo lumo = .ok r) :
    r = (false, none) := by
  unfold parityGap at h
  rw [if_pos ⟨hodd, rfl⟩] at h
  exact (Except.ok.inj h).symm

theorem explicitNeCore_odd {sorted : List (List ℚ)} {ne : ℤ}
    {r : Bool × Option ℚ} (hodd : Int.fmod ne 2 = 1)
    (h : explicitNeCore sorted 2 ne = .ok r) : r = (false, none) := by
  simp only [explicitNeCore] at h
  split at h
  · cases h
  · split at h
    · cases h
    · exact parityGap_odd hodd h

theorem occupationsCore_odd {bands : List (List ℚ)} {soc : StoredArr} {k : ℤ}
    {r : Bool × Option ℚ}
    (hk : deducedNumberElectrons
        ((sortPairRows bands (concatSpins soc)).map (fun row => row.map Prod.snd))
        bands.length = k)
    (hodd : Int.fmod k 2 = 1)
    (h : occupationsCore bands soc 2 = .ok r) : r = (false, none) := by
  simp only [occupationsCore] at h
  split at h
  · cases h
  · split at h
    · exact (Except.ok.inj h).symm
    · split at h
      · cases h
      · rw [hk] at h
        exact parityGap_odd hodd h

/-- C4: without a Fermi energy, when the number of electrons (explicit or
deduced from the occupations) is odd and the stored bands are 2-dimensional
(non-spin-polarised), any normal return of find_bandgap is (False, None):
the material is classified as a metal. -/
theorem find_bandgap_odd_electrons_metal (bd : BandsDataState) (sb : StoredArr)
    (ne? : Option ℚ) (r : Bool × Option ℚ) (k : ℤ)
    (hb : bd.bandsArr = some sb) (hdim : StoredArr.dim sb = 2)
    (hne : effectiveNumberElectrons bd ne? = .ok k) (hodd : Int.fmod k 2 = 1)
    (h : find_bandgap bd ne? none = .ok r) : r = (false, none) := by
  have hg : get_bands bd false = .ok (sb, none) := by
    simp [get_bands, get_array, hb]
  cases ne? with
  | some n =>
    simp only [effectiveNumberElectrons] at hne
    obtain rfl : pyInt n = k := Except.ok.inj hne
    simp only [find_bandgap, show truthy none = false from rfl,
      Bool.and_false, Bool.false_eq_true, if_false, hg, hdim] at h
    exact explicitNeCore_odd hodd h
  | none =>
    simp only [effectiveNumberElectrons, hg] at hne
    cases ho : bd.occArr with
    | none =>
      have hg2 : get_bands bd true =
          .error (.attributeError "No occupations were set") := by
        simp [get_bands, get_array, hb, ho]
      simp [hg2] at hne
    | some soc =>
      have hg2 : get_bands bd true = .ok (sb, some soc) := by
        simp [get_bands, get_array, hb, ho]
      simp only [hg2] at hne
      simp only [find_bandgap, show truthy (none : Option ℚ) = false from rfl,
        Bool.false_and, Bool.false_eq_true, if_false, hg, hg2, hdim] at h
      exact occupationsCore_odd (Except.ok.inj hne) hodd h

/-- Witness for C4: two bands per kpoint and an explicit electron count of 3
(odd) on 2-dimensional bands give (False, None). -/
theorem find_bandgap_odd_electrons_metal_witness :
    find_bandgap bdTwoBands (some 3) none = .ok (false, none) ∧
    effectiveNumberElectrons bdTwoBands (some 3) = .ok 3 ∧
    ((false, none) : Bool × Option ℚ) = (false, none) :=
  ⟨rfl, rfl,
   find_bandgap_odd_electrons_metal bdTwoBands (.two [[0, 1], [0, 1]])
     (some 3) (false, none) 3 rfl rfl rfl rfl rfl⟩

theorem sortRows_eq_of_forall₂_perm {A B : List (List ℚ)}
    (h : List.Forall₂ (fun x y => List.Perm x y) A B) :
    npSortRows A = npSortRows B := by
  induction h with
  | nil => rfl
  | @cons x y xs ys hxy htail ih =>
    simp only [npSortRows, List.map_cons] at ih ⊢
    rw [ih]
    have hs : List.insertionSort (fun a b : ℚ => a ≤ b) x =
        List.insertionSort (fun a b : ℚ => a ≤ b) y :=
      List.eq_of_perm_of_sorted
        (((List.perm_insertionSort _ x).trans hxy).trans
          (List.perm_insertionSort _ y).symm)
        (List.sorted_insertionSort _ x) (List.sorted_insertionSort _ y)
    rw [hs]

theorem perm_flatten_of_forall₂ {l₁ l₂ : List (List ℚ)}
    (h : List.Forall₂ (fun x y => List.Perm x y) l₁ l₂) :
    List.Perm l₁.flatten l₂.flatten := by
  induction h with
  | nil => exact List.Perm.refl _
  | cons hxy htail ih => simpa using hxy.append ih

theorem perm_getD_of_forall₂ {a b : List (List ℚ)}
    (h : List.Forall₂ (fun x y => List.Perm x y) a b) (k : ℕ) :
    List.Perm (a.getD k []) (b.getD k []) := by
  induction h generalizing k with
  | nil => exact List.Perm.refl _
  | cons hxy htail ih =>
    cases k with
    | zero => simpa using hxy
    | succ k2 => simpa using ih k2

theorem forall₂_map_getD {a b : List (List (List ℚ))}
    (h : List.Forall₂ (List.Forall₂ (fun x y => List.Perm x y)) a b) (k : ℕ) :
    List.Forall₂ (fun x y => List.Perm x y)
      (a.map (fun s => s.getD k [])) (b.map (fun s => s.getD k [])) := by
  induction h with
  | nil => exact List.Forall₂.nil
  | cons hxy htail ih => exact List.Forall₂.cons (perm_getD_of_forall₂ hxy k) ih

theorem forall₂_map_of_forall {α β : Type} {R : β → β → Prop} (l : List α)
    (f g : α → β) (hf : ∀ k, R (f k) (g k)) :
    List.Forall₂ R (l.map f) (l.map g) := by
  induction l with
  | nil => exact List.Forall₂.nil
  | cons x xs ih => exact List.Forall₂.cons (hf x) ih

theorem concatSpins_perm {s t : StoredArr} (h : storedPerm s t) :
    List.Forall₂ (fun x y => List.Perm x y) (concatSpins s) (concatSpins t) := by
  cases s with
  | two a =>
    cases t with
    | two b => exact h
    | three b => exact h.elim
  | three a =>
    cases t with
    | two b => exact h.elim
    | three b =>
      have h2 : List.Forall₂ (List.Forall₂ (fun x y => List.Perm x y)) a b := h
      have hlen : (a.headD []).length = (b.headD []).length := by
        cases h2 with
        | nil => rfl
        | cons hxy _ => exact hxy.length_eq
      simp only [concatSpins, concatAxis1]
      rw [hlen]
      exact forall₂_map_of_forall _ _ _
        (fun k => perm_flatten_of_forall₂ (forall₂_map_getD h2 k))

theorem storedPerm_dim {s t : StoredArr} (h : storedPerm s t) :
    StoredArr.dim s = StoredArr.dim t := by
  cases s <;> cases t <;> first | rfl | exact h.elim

/-- C5: find_bandgap with an explicit number_electrons (fermi_energy None),
and likewise with an explicit fermi_energy, is invariant under permuting the
band energies independently within each kpoint (and each spin): the algorithm
first sorts the bands per kpoint, so both calls see the same sorted rows. -/
theorem find_bandgap_perm_invariant (bd bd2 : BandsDataState)
    (s t : StoredArr) (hb : bd.bandsArr = some s) (hb2 : bd2.bandsArr = some t)
    (hp : storedPerm s t) :
    (∀ n : ℚ, find_bandgap bd (some n) none = find_bandgap bd2 (some n) none) ∧
    (∀ fe : ℚ, find_bandgap bd none (some fe) =
      find_bandgap bd2 none (some fe)) := by
  have hsort : npSortRows (concatSpins s) = npSortRows (concatSpins t) :=
    sortRows_eq_of_forall₂_perm (concatSpins_perm hp)
  have hdim : StoredArr.dim s = StoredArr.dim t := storedPerm_dim hp
  have hg1 : get_bands bd false = .ok (s, none) := by
    simp [get_bands, get_array, hb]
  have hg2 : get_bands bd2 false = .ok (t, none) := by
    simp [get_bands, get_array, hb2]
  constructor
  · intro n
    simp only [find_bandgap, hg1, hg2, hsort, hdim]
  · intro fe
    simp only [find_bandgap, hg1, hg2, hsort]

/-- Witness for C5: reversing each kpoint row leaves the explicit-ne result
unchanged. -/
theorem find_bandgap_perm_invariant_witness :
    find_bandgap bdTwoLevels (some 2) none =
      find_bandgap bdTwoLevelsPerm (some 2) none :=
  (find_bandgap_perm_invariant bdTwoLevels bdTwoLevelsPerm
    (.two [[0, 2], [0, 2]]) (.two [[2, 0], [2, 0]]) rfl rfl
    (List.Forall₂.cons (by decide)
      (List.Forall₂.cons (by decide) List.Forall₂.nil))).1 2

/-- C2 (amended): for an explicit Fermi energy lying between the stored
minimum and maximum band energies: when some band level has its minimum
strictly below and its maximum strictly above the Fermi energy, find_bandgap
returns (False, None); otherwise, when the Fermi energy equals the maximum of
some level and the minimum of some level, it returns (False, 0); otherwise,
provided some level maximum lies strictly below and some level minimum lies
strictly above the Fermi energy, it returns (True, gap) with gap the minimum
of the level minima above minus the maximum of the level maxima below. -/
theorem find_bandgap_fermi_cases (bd : BandsDataState) (sb : StoredArr)
    (fe : ℚ) (mm : List (ℚ × ℚ)) (bmax bmin : ℚ)
    (hb : bd.bandsArr = some sb)
    (hmm : maxMins (npTranspose (npSortRows (concatSpins sb))) = .ok mm)
    (hmax : pyMax (npSortRows (concatSpins sb)).flatten = .ok bmax)
    (hmin : pyMin (npSortRows (concatSpins sb)).flatten = .ok bmin)
    (hfe1 : fe ≤ bmax) (hfe2 : bmin ≤ fe) :
    ((∃ i ∈ mm, i.2 < fe ∧ fe < i.1) →
      find_bandgap bd none (some fe) = .ok (false, none)) ∧
    ((¬ ∃ i ∈ mm, i.2 < fe ∧ fe < i.1) → (∃ i ∈ mm, i.1 = fe) →
      (∃ i ∈ mm, i.2 = fe) →
      find_bandgap bd none (some fe) = .ok (false, some 0)) ∧
    (∀ homo lumo : ℚ,
      (¬ ∃ i ∈ mm, i.2 < fe ∧ fe < i.1) →
      (¬ ((∃ i ∈ mm, i.1 = fe) ∧ (∃ i ∈ mm, i.2 = fe))) →
      pyMax ((mm.filter (fun i => decide (i.1 < fe))).map Prod.fst) = .ok homo →
      pyMin ((mm.filter (fun i => decide (fe < i.2))).map Prod.snd) = .ok lumo →
      find_bandgap bd none (some fe) = .ok (true, some (lumo - homo))) := by
  have hg : get_bands bd false = .ok (sb, none) := by
    simp [get_bands, get_array, hb]
  have hstep : find_bandgap bd none (some fe) =
      fermiCore (npSortRows (concatSpins sb)) fe := by
    simp only [find_bandgap, show truthy (none : Option ℚ) = false from rfl,
      Bool.and_false, Bool.false_eq_true, if_false, hg]
  have hnot1 : ¬ bmax < fe := not_lt.2 hfe1
  have hnot2 : ¬ fe < bmin := not_lt.2 hfe2
  have mkAnyFalse : (¬ ∃ i ∈ mm, i.2 < fe ∧ fe < i.1) →
      (mm.any fun i => decide (i.2 < fe) && decide (fe < i.1)) = false := by
    intro hncross
    rw [Bool.eq_false_iff]
    intro hany
    obtain ⟨i, hi, hp⟩ := List.any_eq_true.1 hany
    rw [Bool.and_eq_true, decide_eq_true_eq, decide_eq_true_eq] at hp
    exact hncross ⟨i, hi, hp⟩
  refine ⟨?_, ?_, ?_⟩
  · intro hcross
    obtain ⟨i, hi, h1, h2⟩ := hcross
    have hany : (mm.any fun i => decide (i.2 < fe) && decide (fe < i.1)) = true :=
      List.any_eq_true.2 ⟨i, hi, by simp [h1, h2]⟩
    rw [hstep]
    simp only [fermiCore, hmm, hmax, hmin]
    rw [if_neg hnot1, if_neg hnot2, if_pos hany]
  · intro hncross hex1 hex2
    obtain ⟨i1, hi1, he1⟩ := hex1
    obtain ⟨i2, hi2, he2⟩ := hex2
    have hsem : ((mm.any fun i => decide (i.1 = fe)) &&
        (mm.any fun i => decide (i.2 = fe))) = true := by
      rw [Bool.and_eq_true]
      exact ⟨List.any_eq_true.2 ⟨i1, hi1, decide_eq_true he1⟩,
             List.any_eq_true.2 ⟨i2, hi2, decide_eq_true he2⟩⟩
    rw [hstep]
    simp only [fermiCore, hmm, hmax, hmin]
    rw [if_neg hnot1, if_neg hnot2, if_neg (by simp [mkAnyFalse hncross]),
        if_pos hsem]
  · intro homo lumo hncross hnsem hhomo hlumo
    have hsemf : ((mm.any fun i => decide (i.1 = fe)) &&
        (mm.any fun i => decide (i.2 = fe))) = false := by
      rw [Bool.eq_false_iff]
      intro hsem
      rw [Bool.and_eq_true] at hsem
      obtain ⟨h1, h2⟩ := hsem
      obtain ⟨i1, hi1, he1⟩ := List.any_eq_true.1 h1
      obtain ⟨i2, hi2, he2⟩ := List.any_eq_true.1 h2
      rw [decide_eq_true_eq] at he1 he2
      exact hnsem ⟨⟨i1, hi1, he1⟩, ⟨i2, hi2, he2⟩⟩
    have hh : homo < fe := by
      obtain ⟨i, hi, hieq⟩ := List.mem_map.1 (pyMax_mem hhomo)
      have hfil := (List.mem_filter.1 hi).2
      rw [decide_eq_true_eq] at hfil
      exact hieq ▸ hfil
    have hl : fe < lumo := by
      obtain ⟨i, hi, hieq⟩ := List.mem_map.1 (pyMin_mem hlumo)
      have hfil := (List.mem_filter.1 hi).2
      rw [decide_eq_true_eq] at hfil
      exact hieq ▸ hfil
    have hgap : ¬ (lumo - homo ≤ 0) := not_le.2 (sub_pos.2 (hh.trans hl))
    rw [hstep]
    simp only [fermiCore, hmm, hmax, hmin]
    rw [if_neg hnot1, if_neg hnot2, if_neg (by simp [mkAnyFalse hncross]),
        if_neg (by simp [hsemf])]
    simp only [hhomo, hlumo]
    rw [if_neg hgap]

/-- Witness for C2 (amended): bands [[0, 2], [0, 2]] with Fermi energy 1 form
an insulator with gap 2 - 0. -/
theorem find_bandgap_fermi_cases_witness :
    find_bandgap bdTwoLevels none (some 1) = .ok (true, some (2 - 0)) :=
  (find_bandgap_fermi_cases bdTwoLevels (.two [[0, 2], [0, 2]]) 1
    [(0, 0), (2, 2)] 2 0 rfl rfl rfl rfl (by decide) (by decide)).2.2 0 2
    (by decide) (by decide) rfl rfl

end AiidaBands

namespace AiidaTestbase

/-- C8: tearDownClass deletes all workflows, then all groups, then all links,
then all nodes, and only afterwards the configured user and all computers;
when the node deletion runs the link table is already empty, and when the
user and computer deletions run the node table is already empty. -/
theorem tearDownClass_ordering (email : String) (s : DbState) :
    (tearDownClass email s).map Prod.fst = tearDownOrder ∧
    ∃ s1 s2 s3 s4 s5 s6,
      tearDownClass email s =
        [(.delWorkflows, s1), (.delGroups, s2), (.delLinks, s3),
         (.delNodes, s4), (.delUser, s5), (.delComputers, s6)] ∧
      s3.links = [] ∧ s4 = applyStep email s3 .delNodes ∧
      s4.nodes = [] ∧ s5 = applyStep email s4 .delUser ∧
      s5.nodes = [] ∧ s6 = applyStep email s5 .delComputers := by
  exact ⟨rfl, _, _, _, _, _, _, rfl, rfl, rfl, rfl, rfl, rfl, rfl⟩

end AiidaTestbase
